import Mathlib

/-
Verification of binance-flow-history (src/main.py) against its
natural-language specification.  The Python source is shallowly embedded:
datetimes become a record of calendar fields, dateutil month arithmetic
becomes addMonths, the window planner inside get_full_history becomes
date_intervals / windows, the retry logic of get_history becomes a pure
function over an attempt-indexed stub, the SQLite INSERT OR REPLACE tables
become association lists with an upsert fold, and main becomes an event
trace over abstract fetch results.
-/

namespace BinanceFlow

/-- Calendar datetime, modelling the Python datetime values this script
manipulates: year, month (1-12), day (1-31) and the time of day collapsed
into milliseconds since midnight. -/
structure DateTime where
  year : Nat
  month : Nat
  day : Nat
  ms : Nat
deriving DecidableEq

/-- Leap-year test of the Gregorian calendar, as used by Python datetime. -/
def isLeapYear (y : Nat) : Bool :=
  (y % 4 == 0 && y % 100 != 0) || y % 400 == 0

/-- Number of days of month m of year y. -/
def daysInMonth (y m : Nat) : Nat :=
  if m == 2 then (if isLeapYear y then 29 else 28)
  else if m == 4 || m == 6 || m == 9 || m == 11 then 30
  else 31

/-- Months elapsed since year 0, month 1: a linearisation of (year, month)
used by month arithmetic. -/
def totalMonths (d : DateTime) : Nat :=
  d.year * 12 + (d.month - 1)

/-- Embedding of dateutil relativedelta(months=n) addition for n ≥ 0 (the
only direction the script uses): step the month count and clamp the day to
the length of the target month. -/
def addMonths (d : DateTime) (n : Nat) : DateTime :=
  let tm := totalMonths d + n
  { year := tm / 12
    month := tm % 12 + 1
    day := min d.day (daysInMonth (tm / 12) (tm % 12 + 1))
    ms := d.ms }

/-- Linear key on datetimes: lexicographic in (year, month, day, ms) for
calendar-valid values, used to express chronological order. -/
def key (d : DateTime) : Nat :=
  (totalMonths d * 32 + d.day) * 86400000 + d.ms

/-- Calendar-validity bounds under which the key is order-faithful. -/
abbrev ValidDT (d : DateTime) : Prop :=
  1 ≤ d.month ∧ d.month ≤ 12 ∧ 1 ≤ d.day ∧ d.day ≤ 31 ∧ d.ms < 86400000

/-- Digit-string to number conversion over the character list of a string,
returning none when the list is empty or holds a non-digit. -/
def digitsToNat (cs : List Char) : Option Nat :=
  if cs ≠ [] ∧ cs.all Char.isDigit then
    some (cs.foldl (fun acc c => acc * 10 + (c.toNat - 48)) 0)
  else none

/-- Splitting a character list at every dash, as Python str.split does. -/
def splitDashAux : List Char → List Char → List (List Char)
  | [], acc => [acc.reverse]
  | c :: rest, acc =>
    if c = '-' then acc.reverse :: splitDashAux rest []
    else splitDashAux rest (c :: acc)

/-- Embedding of datetime.strptime(from_date, "%Y-%m") at line 56 of
src/main.py: an exactly four-digit year (CPython's %Y pattern) denoting a
year of at least 1 (datetime.MINYEAR), a dash, and a 1-2 digit month
between 1 and 12; any other shape raises ValueError, modelled as none. -/
def parse_year_month (s : String) : Option (Nat × Nat) :=
  match splitDashAux s.data [] with
  | [ycs, mcs] =>
    match digitsToNat ycs, digitsToNat mcs with
    | some y, some mo =>
      if ycs.length = 4 ∧ 1 ≤ mcs.length ∧ mcs.length ≤ 2
          ∧ 1 ≤ y ∧ 1 ≤ mo ∧ mo ≤ 12 then
        some (y, mo)
      else none
    | _, _ => none
  | _ => none

/-- Multiples of month_interval produced by range(0, nowMonth - startMonth + 1,
month_interval) at line 60 of src/main.py.  Python range is empty when the
stop value is non-positive, which happens exactly when startMonth > nowMonth;
only the month numbers enter this computation, never the years. -/
def monthSteps (startMonth nowMonth k : Nat) : List Nat :=
  if startMonth ≤ nowMonth then
    (List.range ((nowMonth - startMonth) / k + 1)).map (fun i => i * k)
  else []

/-- Boundary list date_intervals of get_full_history (lines 58-62): month
steps added to the parsed start date, then one extra boundary now + 1 month. -/
def date_intervals (start now : DateTime) (k : Nat) : List DateTime :=
  (monthSteps start.month now.month k).map (addMonths start) ++ [addMonths now 1]

/-- Consecutive boundary pairs zip(date_intervals[:-1], date_intervals[1:])
at line 65 of src/main.py: the planned fetch windows. -/
def windows (start now : DateTime) (k : Nat) : List (DateTime × DateTime) :=
  (date_intervals start now k).zip (date_intervals start now k).tail

/-- Days from 1970-01-01 of a Gregorian date (era-based civil-calendar
computation), used to embed datetime.timestamp() assuming UTC. -/
def daysFromCivil (y mo d : Nat) : Int :=
  let ys := if mo ≤ 2 then y - 1 else y
  let era := ys / 400
  let yoe := ys % 400
  let mp := if 2 < mo then mo - 3 else mo + 9
  let doy := (153 * mp + 2) / 5 + d - 1
  let doe := yoe * 365 + yoe / 4 - yoe / 100 + doy
  (era * 146097 + doe : Int) - 719468

/-- Millisecond epoch value int(dt.timestamp() * 1000) computed at lines
120-121 of src/main.py for the window bounds handed to the getter. -/
def timestampMs (dt : DateTime) : Int :=
  daysFromCivil dt.year dt.month dt.day * 86400000 + dt.ms

/-- Embedding of get_min_from_headers (lines 73-82): the slice [20:22] of
the Date header string, the minute digits of an RFC 7231 date.  Headers are
modelled by their Date field; the slice is returned as a character list. -/
def get_min_from_headers (headers : String) : List Char :=
  (headers.data.drop 20).take 2

/-- Loop body of wait_server_minute_rollover: poll i yields the headers
pollHeaders i; the loop returns the index of the first poll whose minute
differs from the minute of the failed call, and none when no such poll
happens within fuel steps (the Python loop would still be polling). -/
def rollover_loop (getterMin : List Char) (pollHeaders : Nat → String) :
    Nat → Nat → Option Nat
  | _, 0 => none
  | i, fuel + 1 =>
    if getterMin = get_min_from_headers (pollHeaders i) then
      rollover_loop getterMin pollHeaders (i + 1) fuel
    else some i

/-- Embedding of wait_server_minute_rollover (lines 85-98): extract the
failed call's minute, then poll the status operation until the reported
minute differs.  Fuel bounds how many polls are examined; the source loop
has no bound of its own. -/
def wait_server_minute_rollover (getterHeaders : String)
    (pollHeaders : Nat → String) (fuel : Nat) : Option Nat :=
  rollover_loop (get_min_from_headers getterHeaders) pollHeaders 0 fuel

/-- Provider exception binance.exceptions.BinanceAPIException, reduced to
the status_code field that get_history inspects. -/
structure ApiError where
  status_code : Nat
deriving DecidableEq

/-- Outcome of one get_history invocation: a returned value, an exception
propagated to the caller, or a run still inside the rollover wait when the
poll fuel runs out. -/
inductive FetchResult (T : Type) where
  | ok : T → FetchResult T
  | raised : ApiError → FetchResult T
  | waiting : FetchResult T
deriving DecidableEq

/-- Observable side effects of one get_history invocation: getter calls
made, wait_server_minute_rollover invocations, rate-limit messages printed
(only when status_code == 429), and time.sleep(delay) throttle sleeps. -/
structure FetchLog where
  getterCalls : Nat
  rolloverWaits : Nat
  rateLimitMessages : Nat
  delaySleeps : Nat
deriving DecidableEq

/-- Embedding of get_history (lines 101-145).  The getter stub is indexed
by the attempt number; both attempts receive the same millisecond window
bounds, as in the source.  The recursive self-call with retrying=True is
inlined: on a first-attempt exception the code reads the connection's last
response headers, prints only when the status code is 429, waits for the
server minute rollover, and retries exactly once; an exception on the
retry attempt is re-raised.  A successful retry sleeps the optional delay
both in the inner and in the outer invocation. -/
def get_history {T : Type} (getter : Nat → Int → Int → Except ApiError T)
    (start_time_date end_time_date : DateTime) (errorHeaders : String)
    (pollHeaders : Nat → String) (delay : Option Nat) (fuel : Nat) :
    FetchResult T × FetchLog :=
  let start_time : Int := timestampMs start_time_date
  let end_time : Int := timestampMs end_time_date
  match getter 0 start_time end_time with
  | Except.ok r => (FetchResult.ok r, ⟨1, 0, 0, if delay.isSome then 1 else 0⟩)
  | Except.error e =>
    let msgs := if e.status_code == 429 then 1 else 0
    match wait_server_minute_rollover errorHeaders pollHeaders fuel with
    | none => (FetchResult.waiting, ⟨1, 1, msgs, 0⟩)
    | some _ =>
      match getter 1 start_time end_time with
      | Except.ok r => (FetchResult.ok r, ⟨2, 1, msgs, if delay.isSome then 2 else 0⟩)
      | Except.error e2 => (FetchResult.raised e2, ⟨2, 1, msgs, 0⟩)

/-- Splitting a character list at every dot, used by the decimal parser. -/
def splitDotAux : List Char → List Char → List (List Char)
  | [], acc => [acc.reverse]
  | c :: rest, acc =>
    if c = '.' then acc.reverse :: splitDotAux rest []
    else splitDotAux rest (c :: acc)

/-- Exact value of a decimal numeric string, embedding the Python float()
conversions of the insert functions (IEEE rounding is abstracted away; the
claims checked here never compare rounded values).  Malformed strings, on
which float() would raise, map to 0 and are not exercised by any claim. -/
def parseDecimal (s : String) : Rat :=
  let neg := s.data.take 1 = ['-']
  let body := if neg ∨ s.data.take 1 = ['+'] then s.data.drop 1 else s.data
  match splitDotAux body [] with
  | [ip] => (if neg then -1 else 1) * ((digitsToNat ip).getD 0 : Rat)
  | [ip, fp] =>
    (if neg then -1 else 1) *
      (((digitsToNat ip).getD 0 : Rat)
        + ((digitsToNat fp).getD 0 : Rat) / (10 : Rat) ^ fp.length)
  | _ => 0

/-- Fiat withdrawal record as returned by the provider, fields as read by
insert_fiat_withdrawals (lines 241-252): amounts arrive as strings. -/
structure FiatWithdrawalRecord where
  orderNo : String
  fiatCurrency : String
  indicatedAmount : String
  amount : String
  totalFee : String
  method : String
  status : String
  createTime : Int
  updateTime : Int
deriving DecidableEq

/-- Row of the fiat_withdrawals table (lines 170-182), orderNo primary key,
REAL columns holding the parsed amounts. -/
structure FiatWithdrawalRow where
  orderNo : String
  fiatCurrency : String
  indicatedAmount : Rat
  amount : Rat
  totalFee : Rat
  method : String
  status : String
  createTime : Int
  updateTime : Int
deriving DecidableEq

/-- Value tuple built for one withdrawal record at lines 242-252. -/
def fiatRowOf (item : FiatWithdrawalRecord) : FiatWithdrawalRow :=
  ⟨item.orderNo, item.fiatCurrency, parseDecimal item.indicatedAmount,
    parseDecimal item.amount, parseDecimal item.totalFee, item.method,
    item.status, item.createTime, item.updateTime⟩

/-- Conversion trade record, fields as read by insert_convert_trades
(lines 275-288). -/
structure ConvertTradeRecord where
  quoteId : String
  orderId : Int
  orderStatus : String
  fromAsset : String
  fromAmount : String
  toAsset : String
  toAmount : String
  ratio : String
  inverseRatio : String
  createTime : Int
  orderType : String
  side : String
deriving DecidableEq

/-- Row of the convert_trades table (lines 185-200), quoteId primary key. -/
structure ConvertTradeRow where
  quoteId : String
  orderId : Int
  orderStatus : String
  fromAsset : String
  fromAmount : Rat
  toAsset : String
  toAmount : Rat
  ratio : Rat
  inverseRatio : Rat
  createTime : Int
  orderType : String
  side : String
deriving DecidableEq

/-- Value tuple built for one conversion trade at lines 275-288. -/
def convertRowOf (item : ConvertTradeRecord) : ConvertTradeRow :=
  ⟨item.quoteId, item.orderId, item.orderStatus, item.fromAsset,
    parseDecimal item.fromAmount, item.toAsset, parseDecimal item.toAmount,
    parseDecimal ( ConvertTradeRecord.ratio item),
    parseDecimal ( ConvertTradeRecord.inverseRatio item),
    item.createTime, item.orderType, item.side⟩

/-- Deposit record, fields as read by insert_deposits (lines 311-325). -/
structure DepositRecord where
  id : String
  amount : String
  coin : String
  network : String
  status : Int
  address : String
  addressTag : String
  txId : String
  insertTime : Int
  transferType : Int
  confirmTimes : String
  unlockConfirm : Int
  walletType : Int
deriving DecidableEq

/-- Row of the deposits table (lines 203-219), id primary key. -/
structure DepositRow where
  id : String
  amount : Rat
  coin : String
  network : String
  status : Int
  address : String
  addressTag : String
  txId : String
  insertTime : Int
  transferType : Int
  confirmTimes : String
  unlockConfirm : Int
  walletType : Int
deriving DecidableEq

/-- Value tuple built for one deposit record at lines 311-325. -/
def depositRowOf (item : DepositRecord) : DepositRow :=
  ⟨item.id, parseDecimal item.amount, item.coin, item.network, item.status,
    item.address, item.addressTag, item.txId, item.insertTime,
    item.transferType, item.confirmTimes, item.unlockConfirm, item.walletType⟩

/-- SQLite INSERT OR REPLACE on a table with a primary key: the row whose
key collides is deleted and the new row inserted. -/
def upsertBy {R : Type} (keyOf : R → String) (table : List R) (row : R) :
    List R :=
  table.filter (fun x => keyOf x != keyOf row) ++ [row]

/-- Effect of cursor.executemany over an INSERT OR REPLACE statement: the
rows are upserted one by one, in list order. -/
def insertAll {R : Type} (keyOf : R → String) (table : List R)
    (rows : List R) : List R :=
  rows.foldl (upsertBy keyOf) table

/-- Embedding of insert_fiat_withdrawals (lines 224-256): executemany of
INSERT OR REPLACE INTO fiat_withdrawals, keyed by orderNo. -/
def insert_fiat_withdrawals (table : List FiatWithdrawalRow)
    (data : List FiatWithdrawalRecord) : List FiatWithdrawalRow :=
  insertAll (fun r => r.orderNo) table (data.map fiatRowOf)

/-- Embedding of insert_convert_trades (lines 259-292), keyed by quoteId. -/
def insert_convert_trades (table : List ConvertTradeRow)
    (data : List ConvertTradeRecord) : List ConvertTradeRow :=
  insertAll (fun r => r.quoteId) table (data.map convertRowOf)

/-- Embedding of insert_deposits (lines 295-329), keyed by id. -/
def insert_deposits (table : List DepositRow)
    (data : List DepositRecord) : List DepositRow :=
  insertAll (fun r => r.id) table (data.map depositRowOf)

/-- Taxonomy of fatal failures of the pipeline: the ValueError raised by
strptime on a malformed from_date, and a provider exception propagated out
of get_history. -/
inductive AppError where
  | invalidDateFormat : AppError
  | provider : ApiError → AppError
deriving DecidableEq

/-- Sequential evaluation of the get_history list comprehension at lines
63-66: one fetch per window, an exception aborting the comprehension and
propagating.  The second component counts the fetches actually started.
The per-window fetch abstracts one get_history invocation, returning
either the response (none when the source yields nothing for the window)
or the exception it re-raised. -/
def run_fetches {R : Type}
    (fetch : DateTime → DateTime → Except ApiError (Option R)) :
    List (DateTime × DateTime) → Except ApiError (List (Option R)) × Nat
  | [] => (Except.ok [], 0)
  | w :: ws =>
    match fetch w.1 w.2 with
    | Except.error e => (Except.error e, 1)
    | Except.ok r =>
      match run_fetches fetch ws with
      | (Except.ok rs, n) => (Except.ok (r :: rs), n + 1)
      | (Except.error e, n) => (Except.error e, n + 1)

/-- Embedding of get_full_history (lines 37-70): parse from_date (a
failure raises before anything else runs), plan the windows, fetch each
sequentially, then drop absent responses and flatten through the
unwrapper.  The second component counts retrieval operations invoked. -/
def get_full_history {R T : Type}
    (fetch : DateTime → DateTime → Except ApiError (Option R))
    (from_date : String) (now : DateTime) (month_interval : Nat)
    (unwrapper : R → List T) : Except AppError (List T) × Nat :=
  match parse_year_month from_date with
  | none => (Except.error AppError.invalidDateFormat, 0)
  | some (y, mo) =>
    let start : DateTime := ⟨y, mo, 1, 0⟩
    match run_fetches fetch (windows start now month_interval) with
    | (Except.error e, n) => (Except.error (AppError.provider e), n)
    | (Except.ok rs, n) =>
      (Except.ok (((rs.filterMap id).map unwrapper).flatten), n)

/-- Response shape of get_fiat_deposit_withdraw_history: records nested
under the data key (unwrapped at line 378). -/
structure FiatResponse where
  data : List FiatWithdrawalRecord
deriving DecidableEq

/-- Response shape of get_convert_trade_history: records nested under the
list key (unwrapped at line 382). -/
structure ConvertResponse where
  list : List ConvertTradeRecord
deriving DecidableEq

/-- Data kinds handled by main. -/
inductive DataKind where
  | fiat : DataKind
  | convert : DataKind
  | deposit : DataKind
deriving DecidableEq

/-- Observable pipeline events of main: one history collection per kind
and one table insertion per kind. -/
inductive Event where
  | fetchHistory : DataKind → Event
  | dbInsert : DataKind → Event
deriving DecidableEq

/-- Discriminator for insertion events. -/
def Event.isInsert : Event → Bool
  | Event.dbInsert _ => true
  | _ => false

/-- Discriminator for history-collection events. -/
def Event.isFetch : Event → Bool
  | Event.fetchHistory _ => true
  | _ => false

/-- State of the SQLite database: the three tables of create_tables. -/
structure DB where
  fiat_withdrawals : List FiatWithdrawalRow
  convert_trades : List ConvertTradeRow
  deposits : List DepositRow
deriving DecidableEq

/-- Embedding of main (lines 362-410): the three get_full_history calls
run in order, an unhandled exception from any of them aborting the run
before init_database ever opens the store; only after all three succeed
are the rows inserted.  The result is the event trace, the final database
state, and the run outcome (an error models the non-zero process exit of
an uncaught exception). -/
def main_run
    (fetchW : DateTime → DateTime → Except ApiError (Option FiatResponse))
    (fetchC : DateTime → DateTime → Except ApiError (Option ConvertResponse))
    (fetchD : DateTime → DateTime → Except ApiError (Option (List DepositRecord)))
    (from_date : String) (now : DateTime) (db : DB) :
    List Event × DB × Except AppError Unit :=
  match (get_full_history fetchW from_date now 1 (fun r => r.data)).1 with
  | Except.error e => ([Event.fetchHistory DataKind.fiat], db, Except.error e)
  | Except.ok w =>
    match (get_full_history fetchC from_date now 1 (fun r => r.list)).1 with
    | Except.error e =>
      ([Event.fetchHistory DataKind.fiat, Event.fetchHistory DataKind.convert],
        db, Except.error e)
    | Except.ok c =>
      match (get_full_history fetchD from_date now 1 (fun r => r)).1 with
      | Except.error e =>
        ([Event.fetchHistory DataKind.fiat, Event.fetchHistory DataKind.convert,
          Event.fetchHistory DataKind.deposit], db, Except.error e)
      | Except.ok d =>
        ([Event.fetchHistory DataKind.fiat, Event.fetchHistory DataKind.convert,
          Event.fetchHistory DataKind.deposit, Event.dbInsert DataKind.fiat,
          Event.dbInsert DataKind.convert, Event.dbInsert DataKind.deposit],
          ⟨insert_fiat_withdrawals db.fiat_withdrawals w,
            insert_convert_trades db.convert_trades c,
            insert_deposits db.deposits d⟩,
          Except.ok ())

/-- Date header of a failed call reporting minute 30, used by concrete
fetcher runs. -/
def testGetterHeaders : String := "Mon, 01 Jan 2024 10:30:55 GMT"

/-- Status-poll headers: the first poll still reports minute 30, every
later poll reports minute 31. -/
def testPollHeaders : Nat → String := fun n =>
  if n == 0 then "Mon, 01 Jan 2024 10:30:40 GMT" else "Mon, 01 Jan 2024 10:31:02 GMT"

/-- Retrieval stub failing the first attempt with a non-rate-limit status
code 500 and succeeding on the retry. -/
def stubFail500ThenOk : Nat → Int → Int → Except ApiError Nat := fun i _ _ =>
  if i == 0 then Except.error ⟨500⟩ else Except.ok 7

/-- Retrieval stub failing both attempts, first with 429 then with 418. -/
def stubFailTwice : Nat → Int → Int → Except ApiError Nat := fun i _ _ =>
  if i == 0 then Except.error ⟨429⟩ else Except.error ⟨418⟩

/-- Retrieval stub failing the first attempt with the rate-limit status
429 and succeeding on the retry. -/
def stubRateLimitThenOk : Nat → Int → Int → Except ApiError Nat := fun i _ _ =>
  if i == 0 then Except.error ⟨429⟩ else Except.ok 99

/-- Withdrawal record of the specification's idempotence example. -/
def w1rec : FiatWithdrawalRecord :=
  ⟨"W1", "USD", "100.00", "99.50", "0.50", "bank", "Successful",
    1700000000000, 1700000100000⟩

/-- Return-index characterisation of the rollover polling loop: a some
result points at the first poll whose minute differs from the getter
minute, every earlier poll having matched it. -/
lemma rollover_loop_some (gm : List Char) (ph : Nat → String) :
    ∀ (fuel i0 i : Nat), rollover_loop gm ph i0 fuel = some i →
      i0 ≤ i ∧ gm ≠ get_min_from_headers (ph i)
        ∧ ∀ j, i0 ≤ j → j < i → gm = get_min_from_headers (ph j) := by
  intro fuel
  induction fuel with
  | zero => intro i0 i h; simp [rollover_loop] at h
  | succ f ih =>
    intro i0 i h
    simp only [rollover_loop] at h
    by_cases hc : gm = get_min_from_headers (ph i0)
    · rw [if_pos hc] at h
      obtain ⟨h1, h2, h3⟩ := ih (i0 + 1) i h
      refine ⟨by omega, h2, ?_⟩
      intro j hj1 hj2
      rcases Nat.eq_or_lt_of_le hj1 with rfl | hlt
      · exact hc
      · exact h3 j hlt hj2
    · rw [if_neg hc] at h
      injection h with h
      subst h
      exact ⟨Nat.le_refl _, hc, fun j hj1 hj2 => by omega⟩

/-- Exhausted fuel means every examined poll still matched the getter
minute: the source loop would still be polling. -/
lemma rollover_loop_none (gm : List Char) (ph : Nat → String) :
    ∀ (fuel i0 : Nat), rollover_loop gm ph i0 fuel = none →
      ∀ j, i0 ≤ j → j < i0 + fuel → gm = get_min_from_headers (ph j) := by
  intro fuel
  induction fuel with
  | zero => intro i0 _ j hj1 hj2; omega
  | succ f ih =>
    intro i0 h j hj1 hj2
    simp only [rollover_loop] at h
    by_cases hc : gm = get_min_from_headers (ph i0)
    · rw [if_pos hc] at h
      rcases Nat.eq_or_lt_of_le hj1 with rfl | hlt
      · exact hc
      · exact ih (i0 + 1) h j hlt (by omega)
    · rw [if_neg hc] at h
      simp at h

/-- C5: the clock-resync wait never returns while the most recently
reported Date-header minute equals the failed call's minute.  When
wait_server_minute_rollover returns at poll i, that poll's minute differs
from the failed call's minute and every earlier poll's minute matched it;
when it has not returned within the examined polls, every one of them
matched (the loop keeps polling). -/
theorem rollover_waits_for_minute_change (gh : String) (ph : Nat → String)
    (fuel : Nat) :
    (∀ i, wait_server_minute_rollover gh ph fuel = some i →
        get_min_from_headers (ph i) ≠ get_min_from_headers gh
        ∧ ∀ j, j < i → get_min_from_headers (ph j) = get_min_from_headers gh)
    ∧ (wait_server_minute_rollover gh ph fuel = none →
        ∀ j, j < fuel → get_min_from_headers (ph j) = get_min_from_headers gh) := by
  constructor
  · intro i h
    unfold wait_server_minute_rollover at h
    obtain ⟨_, h2, h3⟩ := rollover_loop_some _ ph fuel 0 i h
    exact ⟨fun hx => h2 hx.symm, fun j hj => (h3 j (Nat.zero_le j) hj).symm⟩
  · intro h j hj
    unfold wait_server_minute_rollover at h
    exact (rollover_loop_none _ ph fuel 0 h j (Nat.zero_le j) (by omega)).symm

/-- Witness for C5 at a concrete poll stream whose minute advances at the
second poll. -/
theorem rollover_waits_for_minute_change_witness :
    get_min_from_headers (testPollHeaders 1) ≠ get_min_from_headers testGetterHeaders
    ∧ ∀ j, j < 1 →
        get_min_from_headers (testPollHeaders j) = get_min_from_headers testGetterHeaders :=
  (rollover_waits_for_minute_change testGetterHeaders testPollHeaders 5).1 1 (by decide)

/-- C6: for from_date 2024-01, now 2024-03-15 and month_interval 1, the
planner produces exactly the three windows of the specification example,
the last one ending at now plus one month (2024-04-15). -/
theorem planner_example_2024_three_windows :
    parse_year_month "2024-01" = some (2024, 1)
    ∧ windows ⟨2024, 1, 1, 0⟩ ⟨2024, 3, 15, 0⟩ 1 =
        [(⟨2024, 1, 1, 0⟩, ⟨2024, 2, 1, 0⟩), (⟨2024, 2, 1, 0⟩, ⟨2024, 3, 1, 0⟩),
          (⟨2024, 3, 1, 0⟩, ⟨2024, 4, 15, 0⟩)]
    ∧ addMonths ⟨2024, 3, 15, 0⟩ 1 = ⟨2024, 4, 15, 0⟩ := by decide

/-- C3: when both the first attempt and the retry fail and the resync wait
completes, get_history re-raises exactly the second failure after exactly
two getter calls, and no run of get_history ever makes more than two
getter calls. -/
theorem get_history_two_failures_propagates_second {T : Type}
    (getter : Nat → Int → Int → Except ApiError T)
    (ws we : DateTime) (eh : String) (ph : Nat → String)
    (delay : Option Nat) (fuel : Nat) (e1 e2 : ApiError) (i : Nat)
    (h0 : getter 0 (timestampMs ws) (timestampMs we) = Except.error e1)
    (h1 : getter 1 (timestampMs ws) (timestampMs we) = Except.error e2)
    (hroll : wait_server_minute_rollover eh ph fuel = some i) :
    (get_history getter ws we eh ph delay fuel).1 = FetchResult.raised e2
    ∧ (get_history getter ws we eh ph delay fuel).2.getterCalls = 2
    ∧ ∀ (g2 : Nat → Int → Int → Except ApiError Nat) ws2 we2 eh2 ph2 d2 f2,
        (get_history g2 ws2 we2 eh2 ph2 d2 f2).2.getterCalls ≤ 2 := by
  refine ⟨?_, ?_, ?_⟩
  · simp [get_history, h0, h1, hroll]
  · simp [get_history, h0, h1, hroll]
  · intro g2 ws2 we2 eh2 ph2 d2 f2
    rcases hg0 : g2 0 (timestampMs ws2) (timestampMs we2) with e | r
    · rcases hr : wait_server_minute_rollover eh2 ph2 f2 with _ | j
      · simp [get_history, hg0, hr]
      · rcases hg1 : g2 1 (timestampMs ws2) (timestampMs we2) with e2 | r2 <;>
          simp [get_history, hg0, hr, hg1]
    · simp [get_history, hg0]

/-- Witness for C3 at the stub that fails with 429 then with 418. -/
theorem get_history_two_failures_propagates_second_witness :
    (get_history stubFailTwice ⟨2024, 1, 1, 0⟩ ⟨2024, 2, 1, 0⟩ testGetterHeaders
        testPollHeaders none 5).1 = FetchResult.raised ⟨418⟩
    ∧ (get_history stubFailTwice ⟨2024, 1, 1, 0⟩ ⟨2024, 2, 1, 0⟩ testGetterHeaders
        testPollHeaders none 5).2.getterCalls = 2 :=
  ⟨(get_history_two_failures_propagates_second stubFailTwice ⟨2024, 1, 1, 0⟩
      ⟨2024, 2, 1, 0⟩ testGetterHeaders testPollHeaders none 5 ⟨429⟩ ⟨418⟩ 1
      rfl rfl (by decide)).1,
    (get_history_two_failures_propagates_second stubFailTwice ⟨2024, 1, 1, 0⟩
      ⟨2024, 2, 1, 0⟩ testGetterHeaders testPollHeaders none 5 ⟨429⟩ ⟨418⟩ 1
      rfl rfl (by decide)).2.1⟩

/-- C4: when the first attempt fails with the rate-limit status 429, the
resync wait completes and the retry succeeds, get_history returns the
retry's success value after exactly one resync-wait cycle. -/
theorem get_history_ratelimit_then_success {T : Type}
    (getter : Nat → Int → Int → Except ApiError T)
    (ws we : DateTime) (eh : String) (ph : Nat → String)
    (delay : Option Nat) (fuel : Nat) (v : T) (i : Nat)
    (h0 : getter 0 (timestampMs ws) (timestampMs we) = Except.error ⟨429⟩)
    (h1 : getter 1 (timestampMs ws) (timestampMs we) = Except.ok v)
    (hroll : wait_server_minute_rollover eh ph fuel = some i) :
    (get_history getter ws we eh ph delay fuel).1 = FetchResult.ok v
    ∧ (get_history getter ws we eh ph delay fuel).2.rolloverWaits = 1
    ∧ (get_history getter ws we eh ph delay fuel).2.getterCalls = 2 := by
  refine ⟨?_, ?_, ?_⟩ <;> simp [get_history, h0, h1, hroll]

/-- Witness for C4 at the stub failing once with 429 then succeeding. -/
theorem get_history_ratelimit_then_success_witness :
    (get_history stubRateLimitThenOk ⟨2024, 1, 1, 0⟩ ⟨2024, 2, 1, 0⟩
        testGetterHeaders testPollHeaders none 5).1 = FetchResult.ok 99
    ∧ (get_history stubRateLimitThenOk ⟨2024, 1, 1, 0⟩ ⟨2024, 2, 1, 0⟩
        testGetterHeaders testPollHeaders none 5).2.rolloverWaits = 1 :=
  ⟨(get_history_ratelimit_then_success stubRateLimitThenOk ⟨2024, 1, 1, 0⟩
      ⟨2024, 2, 1, 0⟩ testGetterHeaders testPollHeaders none 5 99 1
      rfl rfl (by decide)).1,
    (get_history_ratelimit_then_success stubRateLimitThenOk ⟨2024, 1, 1, 0⟩
      ⟨2024, 2, 1, 0⟩ testGetterHeaders testPollHeaders none 5 99 1
      rfl rfl (by decide)).2.1⟩

/-- Counterexample to C2: a first-attempt failure with the non-rate-limit
status 500 is not propagated: get_history performs the clock-resync retry
and returns the retry's success value, printing no rate-limit message. -/
theorem nonratelimit_first_failure_is_retried :
    (get_history stubFail500ThenOk ⟨2024, 1, 1, 0⟩ ⟨2024, 2, 1, 0⟩
        testGetterHeaders testPollHeaders none 5).1 = FetchResult.ok 7
    ∧ (get_history stubFail500ThenOk ⟨2024, 1, 1, 0⟩ ⟨2024, 2, 1, 0⟩
        testGetterHeaders testPollHeaders none 5).2.rolloverWaits = 1
    ∧ (get_history stubFail500ThenOk ⟨2024, 1, 1, 0⟩ ⟨2024, 2, 1, 0⟩
        testGetterHeaders testPollHeaders none 5).2.rateLimitMessages = 0 := by
  decide

/-- C2 amended: every provider failure on the first attempt, whatever its
status code, triggers the clock-resync retry; the 429 comparison only
controls the printed rate-limit message, and a failure is propagated only
when it happens on the retry attempt. -/
theorem first_failure_always_retried {T : Type}
    (getter : Nat → Int → Int → Except ApiError T)
    (ws we : DateTime) (eh : String) (ph : Nat → String)
    (delay : Option Nat) (fuel : Nat) (e1 : ApiError) (i : Nat)
    (h0 : getter 0 (timestampMs ws) (timestampMs we) = Except.error e1)
    (hroll : wait_server_minute_rollover eh ph fuel = some i) :
    (get_history getter ws we eh ph delay fuel).2.rolloverWaits = 1
    ∧ (get_history getter ws we eh ph delay fuel).2.getterCalls = 2
    ∧ (get_history getter ws we eh ph delay fuel).1 =
        (match getter 1 (timestampMs ws) (timestampMs we) with
          | Except.ok r => FetchResult.ok r
          | Except.error e2 => FetchResult.raised e2)
    ∧ (get_history getter ws we eh ph delay fuel).2.rateLimitMessages =
        (if e1.status_code == 429 then 1 else 0) := by
  rcases hg1 : getter 1 (timestampMs ws) (timestampMs we) with e2 | r <;>
    refine ⟨?_, ?_, ?_, ?_⟩ <;> simp [get_history, h0, hroll, hg1]

/-- Witness for the amended C2 at the 500-then-success stub. -/
theorem first_failure_always_retried_witness :
    (get_history stubFail500ThenOk ⟨2024, 1, 1, 0⟩ ⟨2024, 2, 1, 0⟩
        testGetterHeaders testPollHeaders none 5).2.rolloverWaits = 1
    ∧ (get_history stubFail500ThenOk ⟨2024, 1, 1, 0⟩ ⟨2024, 2, 1, 0⟩
        testGetterHeaders testPollHeaders none 5).2.getterCalls = 2 :=
  ⟨(first_failure_always_retried stubFail500ThenOk ⟨2024, 1, 1, 0⟩ ⟨2024, 2, 1, 0⟩
      testGetterHeaders testPollHeaders none 5 ⟨500⟩ 1 rfl (by decide)).1,
    (first_failure_always_retried stubFail500ThenOk ⟨2024, 1, 1, 0⟩ ⟨2024, 2, 1, 0⟩
      testGetterHeaders testPollHeaders none 5 ⟨500⟩ 1 rfl (by decide)).2.1⟩

/-- C7: a from_date string that does not parse as a year-month makes
get_full_history fail at once with the date-format error, with zero
retrieval operations invoked, and makes the whole run of main abort with
that error, the database untouched and no insert performed (the uncaught
ValueError terminates the Python process with a non-zero status). -/
theorem invalid_from_date_fails_before_any_call
    (s : String) (hs : parse_year_month s = none)
    {R T : Type} (fetch : DateTime → DateTime → Except ApiError (Option R))
    (now : DateTime) (k : Nat) (unwrapper : R → List T)
    (fetchW : DateTime → DateTime → Except ApiError (Option FiatResponse))
    (fetchC : DateTime → DateTime → Except ApiError (Option ConvertResponse))
    (fetchD : DateTime → DateTime → Except ApiError (Option (List DepositRecord)))
    (db : DB) :
    get_full_history fetch s now k unwrapper
        = (Except.error AppError.invalidDateFormat, 0)
    ∧ (main_run fetchW fetchC fetchD s now db).2.2
        = Except.error AppError.invalidDateFormat
    ∧ (main_run fetchW fetchC fetchD s now db).2.1 = db
    ∧ ∀ ev ∈ (main_run fetchW fetchC fetchD s now db).1,
        Event.isInsert ev = false := by
  refine ⟨by simp [get_full_history, hs], ?_, ?_, ?_⟩ <;>
    simp [main_run, get_full_history, hs, Event.isInsert]

/-- Witness for C7 at the malformed from_date 2024 of the specification. -/
theorem invalid_from_date_fails_before_any_call_witness :
    get_full_history (fun _ _ => Except.ok (none : Option Nat)) "2024"
        ⟨2024, 3, 15, 0⟩ 1 (fun n => [n])
      = (Except.error AppError.invalidDateFormat, 0)
    ∧ (main_run (fun _ _ => Except.ok none) (fun _ _ => Except.ok none)
        (fun _ _ => Except.ok none) "2024" ⟨2024, 3, 15, 0⟩ ⟨[], [], []⟩).2.2
      = Except.error AppError.invalidDateFormat :=
  ⟨(invalid_from_date_fails_before_any_call "2024" (by decide)
      (fun _ _ => Except.ok (none : Option Nat)) ⟨2024, 3, 15, 0⟩ 1 (fun n => [n])
      (fun _ _ => Except.ok none) (fun _ _ => Except.ok none)
      (fun _ _ => Except.ok none) ⟨[], [], []⟩).1,
    (invalid_from_date_fails_before_any_call "2024" (by decide)
      (fun _ _ => Except.ok (none : Option Nat)) ⟨2024, 3, 15, 0⟩ 1 (fun n => [n])
      (fun _ _ => Except.ok none) (fun _ _ => Except.ok none)
      (fun _ _ => Except.ok none) ⟨[], [], []⟩).2.1⟩

/-- C10: the planner's boundary count reads only the month-of-year fields
of the start date and of now, never their years, and whenever the parsed
start month strictly exceeds the month of now the planner yields no window
at all: get_full_history invokes no retrieval operation and returns the
empty list. -/
theorem planner_ignores_years_empty_when_month_exceeds :
    (∀ (s1 n1 s2 n2 : DateTime) (k : Nat), s1.month = s2.month →
        n1.month = n2.month →
        (date_intervals s1 n1 k).length = (date_intervals s2 n2 k).length)
    ∧ (∀ (start now : DateTime) (k : Nat), now.month < start.month →
        windows start now k = [])
    ∧ (∀ {R T : Type} (fetch : DateTime → DateTime → Except ApiError (Option R))
        (s : String) (y mo : Nat) (now : DateTime) (k : Nat) (u : R → List T),
        parse_year_month s = some (y, mo) → now.month < mo →
        get_full_history fetch s now k u = (Except.ok [], 0)) := by
  have hwin : ∀ (start now : DateTime) (k : Nat), now.month < start.month →
      windows start now k = [] := by
    intro start now k h
    simp [windows, date_intervals, monthSteps, Nat.not_le.mpr h]
  refine ⟨?_, hwin, ?_⟩
  · intro s1 n1 s2 n2 k h1 h2
    simp [date_intervals, monthSteps, h1, h2]
  · intro R T fetch s y mo now k u hp h
    have := hwin ⟨y, mo, 1, 0⟩ now k h
    simp [get_full_history, hp, this, run_fetches]

/-- Witness for C10: from_date 2023-11 with now in March 2024 yields the
empty history without any retrieval call, although 2023-11 is in the past. -/
theorem planner_ignores_years_empty_when_month_exceeds_witness :
    get_full_history (fun _ _ => Except.ok (none : Option Nat)) "2023-11"
        ⟨2024, 3, 15, 0⟩ 1 (fun n => [n]) = (Except.ok [], 0) :=
  planner_ignores_years_empty_when_month_exceeds.2.2
    (fun _ _ => Except.ok (none : Option Nat)) "2023-11" 2023 11
    ⟨2024, 3, 15, 0⟩ 1 (fun n => [n]) (by decide) (by decide)

/-- C9: every run of main performs its three history collections before
any database insertion: the event trace splits into a fetch-only prefix
followed by an insert-only suffix; when any collection raises, the run
ends in that error with the database unchanged and no insert event at all,
and a fully successful run performs exactly the three fetches followed by
the three inserts. -/
theorem main_fetches_before_inserts
    (fetchW : DateTime → DateTime → Except ApiError (Option FiatResponse))
    (fetchC : DateTime → DateTime → Except ApiError (Option ConvertResponse))
    (fetchD : DateTime → DateTime → Except ApiError (Option (List DepositRecord)))
    (s : String) (now : DateTime) (db : DB) :
    (∃ fs is2, (main_run fetchW fetchC fetchD s now db).1 = fs ++ is2
        ∧ (∀ ev ∈ fs, Event.isInsert ev = false)
        ∧ (∀ ev ∈ is2, Event.isFetch ev = false))
    ∧ (∀ e, (main_run fetchW fetchC fetchD s now db).2.2 = Except.error e →
        (main_run fetchW fetchC fetchD s now db).2.1 = db
        ∧ ∀ ev ∈ (main_run fetchW fetchC fetchD s now db).1,
            Event.isInsert ev = false)
    ∧ ((main_run fetchW fetchC fetchD s now db).2.2 = Except.ok () →
        (main_run fetchW fetchC fetchD s now db).1
          = [Event.fetchHistory DataKind.fiat, Event.fetchHistory DataKind.convert,
              Event.fetchHistory DataKind.deposit, Event.dbInsert DataKind.fiat,
              Event.dbInsert DataKind.convert, Event.dbInsert DataKind.deposit]) := by
  unfold main_run
  rcases h1 : (get_full_history fetchW s now 1 (fun r => r.data)).1 with e1 | w
  · dsimp only
    refine ⟨⟨[Event.fetchHistory DataKind.fiat], [], by simp, by decide, by decide⟩,
      fun e h => ⟨rfl, by decide⟩, fun h => by simp at h⟩
  · rcases h2 : (get_full_history fetchC s now 1 (fun r => r.list)).1 with e2 | c
    · dsimp only
      refine ⟨⟨[Event.fetchHistory DataKind.fiat, Event.fetchHistory DataKind.convert],
        [], by simp, by decide, by decide⟩,
        fun e h => ⟨rfl, by decide⟩, fun h => by simp at h⟩
    · rcases h3 : (get_full_history fetchD s now 1 (fun r => r)).1 with e3 | d
      · dsimp only
        refine ⟨⟨[Event.fetchHistory DataKind.fiat, Event.fetchHistory DataKind.convert,
          Event.fetchHistory DataKind.deposit], [], by simp, by decide, by decide⟩,
          fun e h => ⟨rfl, by decide⟩, fun h => by simp at h⟩
      · dsimp only
        refine ⟨⟨[Event.fetchHistory DataKind.fiat, Event.fetchHistory DataKind.convert,
          Event.fetchHistory DataKind.deposit],
          [Event.dbInsert DataKind.fiat, Event.dbInsert DataKind.convert,
            Event.dbInsert DataKind.deposit], by simp, by decide, by decide⟩,
          fun e h => by simp at h, fun h => rfl⟩

/-- Witness for C9 at a run whose fiat fetch raises: the error propagates
and the database is unchanged. -/
theorem main_fetches_before_inserts_witness :
    (main_run (fun _ _ => Except.error ⟨500⟩) (fun _ _ => Except.ok none)
        (fun _ _ => Except.ok none) "2024-01" ⟨2024, 3, 15, 0⟩ ⟨[], [], []⟩).2.1
      = (⟨[], [], []⟩ : DB)
    ∧ ∀ ev ∈ (main_run (fun _ _ => Except.error ⟨500⟩) (fun _ _ => Except.ok none)
        (fun _ _ => Except.ok none) "2024-01" ⟨2024, 3, 15, 0⟩ ⟨[], [], []⟩).1,
        Event.isInsert ev = false :=
  (main_fetches_before_inserts (fun _ _ => Except.error ⟨500⟩)
      (fun _ _ => Except.ok none) (fun _ _ => Except.ok none) "2024-01"
      ⟨2024, 3, 15, 0⟩ ⟨[], [], []⟩).2.1 (AppError.provider ⟨500⟩) rfl

/-- Decomposition of the upsert fold over an appended table: the leading
part is filtered by all inserted keys and the fold proceeds on the rest. -/
lemma insertAll_append {R : Type} (keyOf : R → String) :
    ∀ (rows a b : List R),
      insertAll keyOf (a ++ b) rows
        = a.filter (fun x => !((rows.map keyOf).contains (keyOf x)))
          ++ insertAll keyOf b rows := by
  intro rows
  induction rows with
  | nil =>
    intro a b
    simp [insertAll]
  | cons r rest ih =>
    intro a b
    have hsplit : upsertBy keyOf (a ++ b) r
        = a.filter (fun x => keyOf x != keyOf r) ++ upsertBy keyOf b r := by
      simp [upsertBy, List.filter_append, List.append_assoc]
    calc insertAll keyOf (a ++ b) (r :: rest)
        = insertAll keyOf (upsertBy keyOf (a ++ b) r) rest := by
          simp [insertAll]
      _ = insertAll keyOf
            (a.filter (fun x => keyOf x != keyOf r) ++ upsertBy keyOf b r) rest := by
          rw [hsplit]
      _ = (a.filter (fun x => keyOf x != keyOf r)).filter
            (fun x => !((rest.map keyOf).contains (keyOf x)))
          ++ insertAll keyOf (upsertBy keyOf b r) rest := ih _ _
      _ = a.filter (fun x => !(((r :: rest).map keyOf).contains (keyOf x)))
          ++ insertAll keyOf b (r :: rest) := by
          rw [List.filter_filter]
          have hins : insertAll keyOf (upsertBy keyOf b r) rest
              = insertAll keyOf b (r :: rest) := by simp [insertAll]
          rw [hins]
          congr 1
          apply List.filter_congr
          intro x _
          simp only [List.map_cons, List.contains_cons, Bool.not_or, bne]
          exact Bool.and_comm _ _

/-- Every row of the fold's result comes from the starting table or
carries the key of one of the inserted rows. -/
lemma mem_insertAll {R : Type} (keyOf : R → String) :
    ∀ (rows t : List R) (x : R), x ∈ insertAll keyOf t rows →
      x ∈ t ∨ keyOf x ∈ rows.map keyOf := by
  intro rows
  induction rows with
  | nil =>
    intro t x h
    exact Or.inl (by simpa [insertAll] using h)
  | cons r rest ih =>
    intro t x h
    have h2 : x ∈ upsertBy keyOf t r ∨ keyOf x ∈ rest.map keyOf :=
      ih _ x (by simpa [insertAll] using h)
    rcases h2 with h2 | h2
    · simp only [upsertBy, List.mem_append, List.mem_filter,
        List.mem_singleton] at h2
      rcases h2 with ⟨h3, -⟩ | rfl
      · exact Or.inl h3
      · exact Or.inr (by simp)
    · exact Or.inr (by simp [h2])

/-- Filtering twice by the same predicate filters once. -/
lemma filter_self_idem {R : Type} (p : R → Bool) (l : List R) :
    (l.filter p).filter p = l.filter p := by
  rw [List.filter_filter]
  apply List.filter_congr
  intro x _
  cases p x <;> simp

/-- Re-running the same INSERT OR REPLACE batch leaves the table exactly
as it was: the upsert fold is idempotent. -/
lemma insertAll_idem {R : Type} (keyOf : R → String) (t rows : List R) :
    insertAll keyOf (insertAll keyOf t rows) rows = insertAll keyOf t rows := by
  have hx : ∀ u : List R, insertAll keyOf u rows
      = u.filter (fun x => !((rows.map keyOf).contains (keyOf x)))
        ++ insertAll keyOf [] rows := by
    intro u
    have h := insertAll_append keyOf rows u []
    simpa using h
  have hC : (insertAll keyOf [] rows).filter
      (fun x => !((rows.map keyOf).contains (keyOf x))) = [] := by
    rw [List.filter_eq_nil_iff]
    intro x hx2
    rcases mem_insertAll keyOf rows [] x hx2 with h | h
    · simp at h
    · have hcon : (rows.map keyOf).contains (keyOf x) = true := by
        simpa [List.contains] using List.elem_iff.mpr h
      simp [hcon]
      rcases List.mem_map.mp h with ⟨a, ha, hke⟩
      exact ⟨a, ha, hke⟩
  calc insertAll keyOf (insertAll keyOf t rows) rows
      = (insertAll keyOf t rows).filter
          (fun x => !((rows.map keyOf).contains (keyOf x)))
        ++ insertAll keyOf [] rows := hx _
    _ = (t.filter (fun x => !((rows.map keyOf).contains (keyOf x)))
          ++ insertAll keyOf [] rows).filter
            (fun x => !((rows.map keyOf).contains (keyOf x)))
        ++ insertAll keyOf [] rows := by rw [← hx t]
    _ = t.filter (fun x => !((rows.map keyOf).contains (keyOf x)))
        ++ insertAll keyOf [] rows := by
        rw [List.filter_append, filter_self_idem, hC, List.append_nil]
    _ = insertAll keyOf t rows := (hx t).symm

/-- Upserting two rows of equal key leaves exactly one row of that key:
the second one. -/
lemma upsert_twice_filter {R : Type} (keyOf : R → String) (t : List R)
    (a b : R) (h : keyOf a = keyOf b) :
    (upsertBy keyOf (upsertBy keyOf t a) b).filter
      (fun x => keyOf x == keyOf b) = [b] := by
  have h1 : List.filter (fun x => keyOf x == keyOf b)
      (List.filter (fun x => keyOf x != keyOf b)
        (List.filter (fun x => keyOf x != keyOf a) t)) = [] := by
    rw [List.filter_eq_nil_iff]
    intro x hx
    have h2 := (List.mem_filter.mp hx).2
    simp only [bne_iff_ne, ne_eq] at h2
    simp [h2]
  simp [upsertBy, List.filter_append, h, h1]

/-- C8: with INSERT OR REPLACE keyed by the table's natural key, inserting
a withdrawal record twice (or an updated record with the same orderNo)
leaves exactly one row for that orderNo carrying the values of the latest
insertion, and re-running any insertion batch over the same records is
idempotent for all three kinds, creating no duplicate rows. -/
theorem insert_idempotent_no_duplicates :
    (∀ (t : List FiatWithdrawalRow) (r1 r2 : FiatWithdrawalRecord),
        r1.orderNo = r2.orderNo →
        (insert_fiat_withdrawals (insert_fiat_withdrawals t [r1]) [r2]).filter
            (fun row => row.orderNo == r2.orderNo) = [fiatRowOf r2])
    ∧ (∀ t d, insert_fiat_withdrawals (insert_fiat_withdrawals t d) d
        = insert_fiat_withdrawals t d)
    ∧ (∀ t d, insert_convert_trades (insert_convert_trades t d) d
        = insert_convert_trades t d)
    ∧ (∀ t d, insert_deposits (insert_deposits t d) d = insert_deposits t d) := by
  refine ⟨?_, ?_, ?_, ?_⟩
  · intro t r1 r2 h
    have hk : (fun r : FiatWithdrawalRow => r.orderNo) (fiatRowOf r1)
        = (fun r : FiatWithdrawalRow => r.orderNo) (fiatRowOf r2) := by
      simpa [fiatRowOf] using h
    have h2 := upsert_twice_filter (fun r : FiatWithdrawalRow => r.orderNo) t
      (fiatRowOf r1) (fiatRowOf r2) hk
    simpa [insert_fiat_withdrawals, insertAll, fiatRowOf] using h2
  · intro t d
    simp only [insert_fiat_withdrawals]
    exact insertAll_idem _ _ _
  · intro t d
    simp only [insert_convert_trades]
    exact insertAll_idem _ _ _
  · intro t d
    simp only [insert_deposits]
    exact insertAll_idem _ _ _

/-- Witness for C8 at the specification's W1 withdrawal record inserted
twice into an empty table. -/
theorem insert_idempotent_no_duplicates_witness :
    (insert_fiat_withdrawals (insert_fiat_withdrawals [] [w1rec]) [w1rec]).filter
      (fun row => row.orderNo == w1rec.orderNo) = [fiatRowOf w1rec] :=
  insert_idempotent_no_duplicates.1 [] w1rec w1rec rfl

/-- Month arithmetic shifts the month count by exactly the added amount. -/
lemma totalMonths_addMonths (d : DateTime) (n : Nat) :
    totalMonths (addMonths d n) = totalMonths d + n := by
  simp only [addMonths, totalMonths]
  omega

/-- Every month length is at most 31 days. -/
lemma daysInMonth_le (y m : Nat) : daysInMonth y m ≤ 31 := by
  unfold daysInMonth
  repeat' split
  all_goals omega

/-- Every month has at least one day. -/
lemma daysInMonth_pos (y m : Nat) : 1 ≤ daysInMonth y m := by
  unfold daysInMonth
  repeat' split
  all_goals omega

/-- Day clamping keeps the day at most 31. -/
lemma addMonths_day_le (d : DateTime) (n : Nat) : (addMonths d n).day ≤ 31 := by
  simp only [addMonths]
  exact le_trans (Nat.min_le_right _ _) (daysInMonth_le _ _)

/-- Adding months to a first-of-month date stays on the first. -/
lemma addMonths_day_one (d : DateTime) (n : Nat) (h : d.day = 1) :
    (addMonths d n).day = 1 := by
  simp only [addMonths, h]
  exact Nat.min_eq_left (daysInMonth_pos _ _)

/-- Month arithmetic keeps the time of day. -/
lemma addMonths_ms (d : DateTime) (n : Nat) : (addMonths d n).ms = d.ms := rfl

/-- Adding zero months to a first-of-month date is the identity. -/
lemma addMonths_zero_start (y m ms0 : Nat) (hm1 : 1 ≤ m) (hm2 : m ≤ 12) :
    addMonths ⟨y, m, 1, ms0⟩ 0 = ⟨y, m, 1, ms0⟩ := by
  simp only [addMonths, totalMonths, DateTime.mk.injEq]
  refine ⟨by omega, by omega, ?_, trivial⟩
  exact Nat.min_eq_left (daysInMonth_pos _ _)

/-- Strictly fewer elapsed months means a strictly smaller key, provided
the earlier date has in-range day and time fields. -/
lemma key_lt_of_tm_lt (a b : DateTime) (hd : a.day ≤ 31)
    (hms : a.ms < 86400000) (h : totalMonths a < totalMonths b) :
    key a < key b := by
  unfold key
  omega

/-- Bounds extracted from a successful from_date parse. -/
lemma parse_year_month_bounds (s : String) (y m : Nat)
    (h : parse_year_month s = some (y, m)) : 1 ≤ y ∧ 1 ≤ m ∧ m ≤ 12 := by
  unfold parse_year_month at h
  split at h
  · split at h
    · split at h
      · rename_i hcond
        simp only [Option.some.injEq, Prod.mk.injEq] at h
        obtain ⟨rfl, rfl⟩ := h
        exact ⟨hcond.2.2.2.1, hcond.2.2.2.2.1, hcond.2.2.2.2.2⟩
      · simp at h
    · simp at h
  · simp at h

/-- Head to last comparison along a strictly increasing boundary list. -/
lemma chain'_head_key_le_last :
    ∀ (l : List DateTime), List.Chain' (fun a b => key a < key b) l →
      ∀ a z, l.head? = some a → l.getLast? = some z → key a ≤ key z := by
  intro l
  induction l with
  | nil => intro _ a z ha _; simp at ha
  | cons x xs ih =>
    intro h a z ha hz
    rw [List.head?_cons, Option.some_inj] at ha
    subst ha
    cases xs with
    | nil =>
      rw [List.getLast?_singleton, Option.some_inj] at hz
      subst hz
      exact Nat.le_refl _
    | cons y2 rest =>
      rw [List.getLast?_cons_cons] at hz
      have h2 := List.chain'_cons.mp h
      exact le_trans (le_of_lt h2.1) (ih h2.2 y2 z rfl hz)

/-- Monotonicity of keys along a strictly increasing boundary list. -/
lemma chain'_key_mono (l : List DateTime)
    (h : List.Chain' (fun a b => key a < key b) l) :
    ∀ (i j : Nat) (hj : j < l.length) (hij : i ≤ j),
      key (l.get ⟨i, by omega⟩) ≤ key (l.get ⟨j, hj⟩) := by
  intro i j
  induction j with
  | zero =>
    intro hj hij
    have : i = 0 := by omega
    subst this
    exact Nat.le_refl _
  | succ j ih =>
    intro hj hij
    rcases Nat.eq_or_lt_of_le hij with rfl | h2
    · exact Nat.le_refl _
    · have hjl : j < l.length := by omega
      have hij2 : i ≤ j := by omega
      have hstep := List.chain'_iff_get.mp h j (by omega)
      exact le_trans (ih hjl hij2) (le_of_lt hstep)

/-- Consecutive boundary pairs of a strictly increasing list cover exactly
the half-open interval from the first boundary to the last. -/
lemma windows_cover_of_chain :
    ∀ (l : List DateTime), List.Chain' (fun a b => key a < key b) l →
      ∀ a z, l.head? = some a → l.getLast? = some z →
      ∀ t : Nat, (key a ≤ t ∧ t < key z) ↔
        ∃ p ∈ l.zip l.tail, key p.1 ≤ t ∧ t < key p.2 := by
  intro l
  induction l with
  | nil => intro _ a z ha _ t; simp at ha
  | cons x xs ih =>
    intro h a z ha hz t
    rw [List.head?_cons, Option.some_inj] at ha
    subst ha
    cases xs with
    | nil =>
      rw [List.getLast?_singleton, Option.some_inj] at hz
      subst hz
      simp only [List.tail_cons, List.zip_nil_right, List.not_mem_nil,
        false_and, exists_false, iff_false]
      omega
    | cons y2 rest =>
      rw [List.getLast?_cons_cons] at hz
      have h2 := List.chain'_cons.mp h
      have hyz : key y2 ≤ key z := chain'_head_key_le_last (y2 :: rest) h2.2 y2 z rfl hz
      have hIH := ih h2.2 y2 z rfl hz t
      simp only [List.tail_cons, List.zip_cons_cons, List.mem_cons] at *
      constructor
      · rintro ⟨h3, h4⟩
        by_cases h5 : t < key y2
        · exact ⟨(x, y2), Or.inl rfl, h3, h5⟩
        · obtain ⟨p, hp1, hp2⟩ := hIH.mp ⟨by omega, h4⟩
          exact ⟨p, Or.inr hp1, hp2⟩
      · rintro ⟨p, hp1, hp2, hp3⟩
        rcases hp1 with rfl | hp4
        · have := h2.1
          simp only at hp2 hp3
          constructor
          · exact hp2
          · omega
        · have hback := hIH.mpr ⟨p, hp4, hp2, hp3⟩
          have := h2.1
          constructor
          · omega
          · exact hback.2

/-- The appended boundary now + 1 month is always the planner's last. -/
lemma date_intervals_last (start now : DateTime) (k : Nat) :
    (date_intervals start now k).getLast? = some (addMonths now 1) := by
  unfold date_intervals
  exact List.getLast?_concat _

/-- When the parsed month does not exceed the month of now, the first
boundary is the parsed start date itself. -/
lemma date_intervals_head (y m : Nat) (now : DateTime) (k : Nat)
    (hm1 : 1 ≤ m) (hm2 : m ≤ 12) (hmon : m ≤ now.month) :
    (date_intervals ⟨y, m, 1, 0⟩ now k).head? = some ⟨y, m, 1, 0⟩ := by
  have h0 : monthSteps (⟨y, m, 1, 0⟩ : DateTime).month now.month k
      = (List.range ((now.month - m) / k + 1)).map (fun i => i * k) := by
    simp [monthSteps, hmon]
  unfold date_intervals
  rw [h0, List.range_succ_eq_map]
  simp [addMonths_zero_start y m 0 hm1 hm2]

/-- The planner's boundary list is strictly increasing in key whenever the
parsed month does not exceed the month of now and the start year does not
exceed the year of now. -/
lemma date_intervals_chain (y m : Nat) (now : DateTime) (k : Nat)
    (hm1 : 1 ≤ m) (hm2 : m ≤ 12) (hk : 0 < k)
    (hnow : ValidDT now) (hmon : m ≤ now.month) (hyr : y ≤ now.year) :
    List.Chain' (fun a b => key a < key b) (date_intervals ⟨y, m, 1, 0⟩ now k) := by
  obtain ⟨hn1, hn2, hn3, hn4, hn5⟩ := hnow
  have hq : (now.month - m) / k * k ≤ now.month - m := Nat.div_mul_le_self _ _
  have h0 : monthSteps (⟨y, m, 1, 0⟩ : DateTime).month now.month k
      = (List.range ((now.month - m) / k + 1)).map (fun i => i * k) := by
    simp [monthSteps, hmon]
  unfold date_intervals
  rw [h0, List.map_map]
  apply List.Chain'.append
  · rw [List.chain'_map, List.chain'_range_succ]
    intro i hi
    simp only [Function.comp_apply, Nat.succ_eq_add_one]
    apply key_lt_of_tm_lt
    · exact addMonths_day_le _ _
    · rw [addMonths_ms]
      simp
    · rw [totalMonths_addMonths, totalMonths_addMonths]
      have h3 : (i + 1) * k = i * k + k := by ring
      omega
  · exact List.chain'_singleton _
  · intro x hx z hz
    simp only [List.head?_cons, Option.mem_def, Option.some_inj] at hz
    subst hz
    rw [List.range_succ, List.map_append] at hx
    simp only [List.map_cons, List.map_nil, List.getLast?_concat,
      Option.mem_def, Option.some_inj] at hx
    subst hx
    simp only [Function.comp_apply]
    apply key_lt_of_tm_lt
    · exact addMonths_day_le _ _
    · rw [addMonths_ms]
      simp
    · rw [totalMonths_addMonths, totalMonths_addMonths]
      have h1 : totalMonths ⟨y, m, 1, 0⟩ = y * 12 + (m - 1) := rfl
      have h2 : totalMonths now = now.year * 12 + (now.month - 1) := rfl
      omega

/-- C1 holds only on one side of a year boundary; amended: for every valid
from_date whose month-of-year does not exceed the month of now and whose
year does not exceed the year of now (which covers all same-year runs with
from_date at most now), the planner's windows are pairwise contiguous,
chronologically ordered with nonempty windows, mutually non-overlapping,
and their union covers exactly the half-open interval from from_date to
now plus one month. -/
theorem planner_windows_contiguous_cover
    (s : String) (y m : Nat) (now : DateTime) (k : Nat)
    (hparse : parse_year_month s = some (y, m))
    (hk : 0 < k) (hnow : ValidDT now)
    (hmon : m ≤ now.month) (hyr : y ≤ now.year) :
    (∀ (i : Nat) (a b : DateTime × DateTime),
        (windows ⟨y, m, 1, 0⟩ now k)[i]? = some a →
        (windows ⟨y, m, 1, 0⟩ now k)[i + 1]? = some b → a.2 = b.1)
    ∧ (∀ (i : Nat) (a : DateTime × DateTime),
        (windows ⟨y, m, 1, 0⟩ now k)[i]? = some a → key a.1 < key a.2)
    ∧ (∀ (i j : Nat) (a b : DateTime × DateTime),
        i < j → (windows ⟨y, m, 1, 0⟩ now k)[i]? = some a →
        (windows ⟨y, m, 1, 0⟩ now k)[j]? = some b → key a.2 ≤ key b.1)
    ∧ (∀ t : Nat, (key ⟨y, m, 1, 0⟩ ≤ t ∧ t < key (addMonths now 1)) ↔
        ∃ p ∈ windows ⟨y, m, 1, 0⟩ now k, key p.1 ≤ t ∧ t < key p.2) := by
  obtain ⟨hy1, hm1, hm2⟩ := parse_year_month_bounds s y m hparse
  have hchain := date_intervals_chain y m now k hm1 hm2 hk hnow hmon hyr
  have hhead := date_intervals_head y m now k hm1 hm2 hmon
  have hlast := date_intervals_last (⟨y, m, 1, 0⟩ : DateTime) now k
  refine ⟨?_, ?_, ?_, ?_⟩
  · intro i a b ha hb
    rw [windows, List.getElem?_zip_eq_some] at ha hb
    have ha2 := ha.2
    have hb1 := hb.1
    rw [List.getElem?_tail] at ha2
    rw [ha2] at hb1
    exact Option.some_inj.mp hb1
  · intro i a ha
    rw [windows, List.getElem?_zip_eq_some] at ha
    have ha1 := ha.1
    have ha2 := ha.2
    rw [List.getElem?_tail] at ha2
    obtain ⟨hlt1, he1⟩ := List.getElem?_eq_some.mp ha1
    obtain ⟨hlt2, he2⟩ := List.getElem?_eq_some.mp ha2
    have hstep := List.chain'_iff_get.mp hchain i (by omega)
    rw [← he1, ← he2]
    exact hstep
  · intro i j a b hij ha hb
    rw [windows, List.getElem?_zip_eq_some] at ha hb
    have ha2 := ha.2
    have hb1 := hb.1
    rw [List.getElem?_tail] at ha2
    obtain ⟨hlt1, he1⟩ := List.getElem?_eq_some.mp ha2
    obtain ⟨hlt2, he2⟩ := List.getElem?_eq_some.mp hb1
    rw [← he1, ← he2]
    exact chain'_key_mono _ hchain (i + 1) j hlt2 (by omega)
  · intro t
    have := windows_cover_of_chain _ hchain ⟨y, m, 1, 0⟩ (addMonths now 1)
      hhead hlast t
    rw [windows]
    exact this

/-- Counterexample to C1 as stated: from_date 2023-11 parses, precedes now
2024-03-15, yet the planner emits no window at all, leaving the whole
nonempty target interval uncovered. -/
theorem planner_cross_year_gap :
    parse_year_month "2023-11" = some (2023, 11)
    ∧ key (⟨2023, 11, 1, 0⟩ : DateTime) < key (⟨2024, 3, 15, 0⟩ : DateTime)
    ∧ windows ⟨2023, 11, 1, 0⟩ ⟨2024, 3, 15, 0⟩ 1 = []
    ∧ key (⟨2023, 11, 1, 0⟩ : DateTime) < key (addMonths ⟨2024, 3, 15, 0⟩ 1) := by
  decide

/-- Witness for the amended C1: with from_date 2024-01, now 2024-03-15 and
month_interval 1, a representative instant inside the target interval lies
in one of the planner's windows. -/
theorem planner_windows_contiguous_cover_witness :
    ∃ p ∈ windows ⟨2024, 1, 1, 0⟩ ⟨2024, 3, 15, 0⟩ 1,
      key p.1 ≤ key (⟨2024, 2, 10, 0⟩ : DateTime)
      ∧ key (⟨2024, 2, 10, 0⟩ : DateTime) < key p.2 :=
  ((planner_windows_contiguous_cover "2024-01" 2024 1 ⟨2024, 3, 15, 0⟩ 1
    (by decide) (by decide) (by decide) (by decide) (by decide)).2.2.2
    (key (⟨2024, 2, 10, 0⟩ : DateTime))).mp ⟨by decide, by decide⟩

end BinanceFlow
